import Mathlib

/-!
# Verification of the Garmin MCP server core (src/server.py, src/auth.py)

Shallow embedding of the session/authentication manager, the uniform
result-envelope contract, the date helpers and the fourteen tool handlers
of `src/server.py`.  Python dictionaries are modelled as association lists
of JSON-like values, exceptions as an explicit `Except` layer, the remote
Garmin client library as an environment of call outcomes, and the
module-level mutable `client` as explicitly threaded state.  Every remote
interaction (token login, credential login, token persistence, data calls)
is recorded in an effect trace so that ordering and call-count claims can
be stated.
-/

/-- JSON-like values: the payloads exchanged with the remote service and the
shape of every handler's return dictionary values. -/
inductive JVal where
  | null
  | bool (b : Bool)
  | num (n : Int)
  | str (s : String)
  | arr (xs : List JVal)
  | obj (fields : List (String × JVal))
deriving Repr

/-- Decidable equality on `Except` results, for evaluating concrete runs. -/
instance {ε α : Type} [DecidableEq ε] [DecidableEq α] :
    DecidableEq (Except ε α) := fun a b =>
  match a, b with
  | .ok x, .ok y =>
    if h : x = y then isTrue (by rw [h])
    else isFalse (by intro hc; cases hc; exact h rfl)
  | .error x, .error y =>
    if h : x = y then isTrue (by rw [h])
    else isFalse (by intro hc; cases hc; exact h rfl)
  | .ok _, .error _ => isFalse (by intro hc; cases hc)
  | .error _, .ok _ => isFalse (by intro hc; cases hc)

/-- A Python dictionary with string keys, in insertion order. -/
abbrev Dict := List (String × JVal)

/-- The exception classes visible in `server.py`: the built-in
`ConnectionError` raised by `get_client`, the three classified
`garminconnect` errors, `ValueError` (date parsing, from `strptime`),
and a catch-all for any other `Exception`. -/
inductive Exc where
  | connectionError (msg : String)
  | garminAuth (msg : String)
  | garminConn (msg : String)
  | garminRate (msg : String)
  | valueError (msg : String)
  | other (msg : String)
deriving Repr, BEq, DecidableEq

/- ## Calendar model (Python `datetime.date` on the proleptic Gregorian
calendar, years 1..9999) -/

/-- Gregorian leap-year rule, as used by Python's `datetime`. -/
def isLeap (y : Nat) : Bool :=
  (y % 4 == 0 && y % 100 != 0) || y % 400 == 0

/-- Length of month `m` of year `y`; `0` for out-of-range months. -/
def daysInMonth (y m : Nat) : Nat :=
  match m with
  | 1 => 31
  | 2 => if isLeap y then 29 else 28
  | 3 => 31
  | 4 => 30
  | 5 => 31
  | 6 => 30
  | 7 => 31
  | 8 => 31
  | 9 => 30
  | 10 => 31
  | 11 => 30
  | 12 => 31
  | _ => 0

/-- A calendar date `(year, month, day)`, the value of a Python `date`. -/
structure Date where
  year : Nat
  month : Nat
  day : Nat
deriving Repr, DecidableEq

/-- A date is valid iff Python's `date(year, month, day)` constructor accepts
it: year in `1..9999` (MINYEAR..MAXYEAR), month in `1..12`, day in
`1..daysInMonth`. -/
def Date.Valid (c : Date) : Prop :=
  1 ≤ c.year ∧ c.year ≤ 9999 ∧ 1 ≤ c.month ∧ c.month ≤ 12 ∧
    1 ≤ c.day ∧ c.day ≤ daysInMonth c.year c.month

instance (c : Date) : Decidable c.Valid := by
  unfold Date.Valid; infer_instance

/-- `date.max`, the largest Python date. -/
def maxDate : Date := ⟨9999, 12, 31⟩

/-- Python date comparison `a <= b` (dates compare chronologically, which for
`(year, month, day)` triples is lexicographic order). -/
def Date.ble (a b : Date) : Bool :=
  if a.year < b.year then true
  else if b.year < a.year then false
  else if a.month < b.month then true
  else if b.month < a.month then false
  else decide (a.day ≤ b.day)

/-- Python date comparison `a < b`. -/
def Date.blt (a b : Date) : Bool :=
  if a.year < b.year then true
  else if b.year < a.year then false
  else if a.month < b.month then true
  else if b.month < a.month then false
  else decide (a.day < b.day)

/-- The calendar successor: the value of `d + timedelta(days=1)` on valid
in-range dates (day increment with month/year rollover). -/
def nextDay (c : Date) : Date :=
  if c.day < daysInMonth c.year c.month then ⟨c.year, c.month, c.day + 1⟩
  else if c.month < 12 then ⟨c.year, c.month + 1, 1⟩
  else ⟨c.year + 1, 1, 1⟩

/-- Left-pad a number to two digits, as in `date.isoformat`. -/
def pad2 (n : Nat) : String :=
  if n < 10 then "0" ++ toString n else toString n

/-- Left-pad a number to four digits, as in `date.isoformat`. -/
def pad4 (n : Nat) : String :=
  if n < 10 then "000" ++ toString n
  else if n < 100 then "00" ++ toString n
  else if n < 1000 then "0" ++ toString n
  else toString n

/-- Python `date.isoformat()`: the `YYYY-MM-DD` rendering of a date. -/
def Date.isoformat (c : Date) : String :=
  pad4 c.year ++ "-" ++ pad2 c.month ++ "-" ++ pad2 c.day

/- ### Day ordinals, for counting the days of a range -/

/-- Days in year `y`. -/
def daysInYear (y : Nat) : Nat := if isLeap y then 366 else 365

/-- Days in the months of year `y` strictly before month `m`
(`daysBeforeMonth y 1 = 0`). -/
def daysBeforeMonth (y : Nat) : Nat → Nat
  | 0 => 0
  | m + 1 => daysBeforeMonth y m + daysInMonth y m

/-- Days in the years strictly before year `y` (up to a constant offset;
only differences of ordinals are ever used). -/
def daysBeforeYear : Nat → Nat
  | 0 => 0
  | y + 1 => daysBeforeYear y + daysInYear y

/-- The day ordinal of a date: a numbering of calendar days on which
`nextDay` is `+1` (the analogue of Python's `date.toordinal`). -/
def Date.toOrdinal (c : Date) : Nat :=
  daysBeforeYear c.year + daysBeforeMonth c.year c.month + c.day

/- ## `datetime.strptime(s, "%Y-%m-%d")` -/

/-- Numeric value of a digit character. -/
def digitVal (c : Char) : Nat := c.toNat - 48

/-- Whether the code point of `c` lies in `lo..hi`. -/
def charIn (c : Char) (lo hi : Nat) : Bool :=
  lo ≤ c.toNat && c.toNat ≤ hi

/-- CPython's `%m` pattern `1[0-2]|0[1-9]|[1-9]`: a one- or two-digit month,
returning the value and the unconsumed characters. -/
def parseMonth : List Char → Option (Nat × List Char)
  | c1 :: c2 :: rest =>
    if c1 == '1' && charIn c2 48 50 then some (10 + digitVal c2, rest)
    else if c1 == '0' && charIn c2 49 57 then some (digitVal c2, rest)
    else if charIn c1 49 57 then some (digitVal c1, c2 :: rest)
    else none
  | [c1] => if charIn c1 49 57 then some (digitVal c1, []) else none
  | [] => none

/-- CPython's `%d` pattern `3[01]|[12]\d|0[1-9]|[1-9]`: a one- or two-digit
day of month. -/
def parseDay : List Char → Option (Nat × List Char)
  | c1 :: c2 :: rest =>
    if c1 == '3' && charIn c2 48 49 then some (30 + digitVal c2, rest)
    else if charIn c1 49 50 && c2.isDigit then
      some (digitVal c1 * 10 + digitVal c2, rest)
    else if c1 == '0' && charIn c2 49 57 then some (digitVal c2, rest)
    else if charIn c1 49 57 then some (digitVal c1, c2 :: rest)
    else none
  | [c1] => if charIn c1 49 57 then some (digitVal c1, []) else none
  | [] => none

/-- The regex phase of `strptime(s, "%Y-%m-%d")`: `%Y` is exactly four
digits, `%m` and `%d` as above, with literal `-` separators; a failed match
raises `ValueError` ("time data ... does not match format ..."), and
trailing characters raise `ValueError` ("unconverted data remains"). -/
def strptimeRegex (s : String) : Except Exc (Nat × Nat × Nat) :=
  let noMatch : Except Exc (Nat × Nat × Nat) :=
    .error (.valueError
      ("time data " ++ s ++ " does not match format %Y-%m-%d"))
  match s.toList with
  | y1 :: y2 :: y3 :: y4 :: sep1 :: rest =>
    if y1.isDigit && y2.isDigit && y3.isDigit && y4.isDigit && sep1 == '-'
    then
      let y := ((digitVal y1 * 10 + digitVal y2) * 10 + digitVal y3) * 10
        + digitVal y4
      match parseMonth rest with
      | some (m, sep2 :: rest2) =>
        if sep2 == '-' then
          match parseDay rest2 with
          | some (d, leftover) =>
            if leftover.isEmpty then .ok (y, m, d)
            else .error (.valueError
              ("unconverted data remains: " ++ String.mk leftover))
          | none => noMatch
        else noMatch
      | _ => noMatch
    else noMatch
  | _ => noMatch

/-- The `datetime(year, month, day)` constructor's own validation: raises
`ValueError` when the components are out of range. -/
def mkDateChecked (y m d : Nat) : Except Exc Date :=
  if y < 1 || 9999 < y then
    .error (.valueError ("year " ++ toString y ++ " is out of range"))
  else if m < 1 || 12 < m then
    .error (.valueError "month must be in 1..12")
  else if d < 1 || daysInMonth y m < d then
    .error (.valueError "day is out of range for month")
  else .ok ⟨y, m, d⟩

/-- `datetime.strptime(s, "%Y-%m-%d").date()`: regex match, then date
construction. -/
def strptime_ymd (s : String) : Except Exc Date :=
  match strptimeRegex s with
  | .error e => .error e
  | .ok (y, m, d) => mkDateChecked y m d

/- ## The date-range loop of `update_menstrual_cycle`

`cycle_dates = []; current = start
 while current <= end: cycle_dates.append(current.isoformat()); current += timedelta(days=1)`

The loop body increments `current` even on the final iteration, so when
`end` is `date.max` the increment raises `OverflowError` and the whole
handler fails (the partially built list is discarded by the exception). -/

/-- Termination measure for the date loop: strictly decreases along
`nextDay` whenever `current <= e` holds. -/
def loopMeasure (e current : Date) : Nat :=
  500 * (e.year + 1 - current.year) + 40 * (12 - current.month)
    + (32 - current.day)

/-- The date-expansion loop of `update_menstrual_cycle`, returning the list
of isoformatted dates.  `current += timedelta(days=1)` is Python date
arithmetic: a result falling outside `date.min .. date.max` raises
`OverflowError` ("date value out of range"), which happens exactly when
`current = date.max`; the exception discards the partially built list. -/
def cycleLoop (current e : Date) : Except Exc (List String) :=
  if h1 : Date.ble current e = true then
    if current = maxDate then .error (.other "date value out of range")
    else
      match cycleLoop (nextDay current) e with
      | .error exc => .error exc
      | .ok rest => .ok (Date.isoformat current :: rest)
  else .ok []
termination_by loopMeasure e current
decreasing_by
  have hy : current.year ≤ e.year := by
    unfold Date.ble at h1
    by_cases hb1 : current.year < e.year
    · omega
    · by_cases hb2 : e.year < current.year
      · simp [hb1, hb2] at h1
      · omega
  have hdm : daysInMonth current.year current.month ≤ 31 := by
    unfold daysInMonth
    split <;> first | omega | (split <;> omega)
  unfold nextDay loopMeasure
  split
  · dsimp only
    omega
  · split <;> (dsimp only; omega)

/- ## Environment: the remote client library and process configuration -/

/-- An authenticated `Garmin` client object (identified by a tag so that
"returns the cached session unchanged" is expressible). -/
abbrev GClient := Nat

/-- The remote data calls a handler can issue through the client library. -/
inductive RemoteCall where
  | get_user_summary (d : String)
  | get_body_battery (d : String)
  | get_body_battery_events (d : String)
  | get_sleep_data (d : String)
  | get_heart_rates (d : String)
  | get_rhr_day (d : String)
  | get_stress_data (d : String)
  | get_steps_data (d : String)
  | get_menstrual_data_for_date (d : String)
  | get_hrv_data (d : String)
  | get_hydration_data (d : String)
  | add_hydration_data (value_in_ml : JVal)
  | get_activities (start limit : Int)
  | connectapi (url : String) (payload : JVal)
deriving Repr

/-- Observable interactions with the outside world, in program order:
the handler-level `get_client()` call, the two remote login styles, token
persistence (`garth.dump`), and remote data calls. -/
inductive Effect where
  | getClient
  | tokenLogin (store : String)
  | credLogin (email password : String)
  | dumpTokens (store : String)
  | remote (call : RemoteCall)
deriving Repr

/-- `TOKENSTORE = os.path.expanduser("~/.garminconnect")`. -/
def TOKENSTORE : String := "~/.garminconnect"

/-- `MENSTRUAL_CALENDAR_URL` from `server.py`. -/
def MENSTRUAL_CALENDAR_URL : String :=
  "/periodichealth-service/menstrualcycle/calendarupdates"

/-- The ambient world an invocation runs against: whether the token store
path exists, the outcomes the client library would produce for each
authentication style and each remote call, the configured credentials, and
the current date/time. -/
structure Env where
  tokenstoreExists : Bool
  tokenClient : GClient
  tokenLoginResult : Except Exc Unit
  email : Option String
  password : Option String
  credClient : GClient
  credLoginResult : Except Exc Unit
  remote : RemoteCall → Except Exc JVal
  today : String
  now : String
  userProfilePk : Int

/-- Python truthiness of an optional string (`os.getenv` result): `None`
and the empty string are falsy. -/
def truthy : Option String → Bool
  | none => false
  | some s => !(s == "")

/- ## Session manager (`init_client` / `get_client`) -/

/-- The email/password fallback tier of `init_client` (`server.py` lines
47-63): if both credentials are truthy, construct a client, log in, and on
success persist tokens and cache the client; otherwise leave the cached
client untouched and return `None`.  `tr` is the trace accumulated by the
token tier. -/
def init_client_fallback (env : Env) (client : Option GClient)
    (tr : List Effect) : Option GClient × Option GClient × List Effect :=
  if truthy env.email && truthy env.password then
    match env.credLoginResult with
    | .ok _ =>
      (some env.credClient, some env.credClient,
        tr ++ [.credLogin (env.email.getD "") (env.password.getD ""),
               .dumpTokens TOKENSTORE])
    | .error _ =>
      (none, client,
        tr ++ [.credLogin (env.email.getD "") (env.password.getD "")])
  else (none, client, tr)

/-- `init_client()` (`server.py` lines 31-63): try token-based auth first
(when the token store path exists), persisting refreshed tokens on success;
fall back to email/password; return `None` when neither tier succeeds.
Returns (return value, new module-level `client`, effect trace). -/
def init_client (env : Env) (client : Option GClient) :
    Option GClient × Option GClient × List Effect :=
  if env.tokenstoreExists then
    match env.tokenLoginResult with
    | .ok _ =>
      (some env.tokenClient, some env.tokenClient,
        [.tokenLogin TOKENSTORE, .dumpTokens TOKENSTORE])
    | .error _ =>
      init_client_fallback env client [Effect.tokenLogin TOKENSTORE]
  else init_client_fallback env client []

/-- `get_client()` (`server.py` lines 66-75): return the cached client,
initializing it if absent; raise `ConnectionError` when still absent. -/
def get_client (env : Env) (client : Option GClient) :
    Except Exc GClient × Option GClient × List Effect :=
  match client with
  | some c => (.ok c, some c, [])
  | none =>
    let r := init_client env none
    match r.2.1 with
    | some c => (.ok c, some c, r.2.2)
    | none =>
      (.error (.connectionError
          "Not authenticated. Run auth.py to set up Garmin credentials."),
        none, r.2.2)

/-- `resolve_date(d)` (`server.py` lines 78-80): `d if d else
date.today().isoformat()` — a falsy date (absent or empty) resolves to
today. -/
def resolve_date (env : Env) (d : Option String) : String :=
  match d with
  | none => env.today
  | some s => if s == "" then env.today else s

/- ## Result envelopes -/

/-- The value a handler returns: the result dictionary, the module-level
`client` after the call, and the effect trace of the call. -/
structure HandlerOut where
  result : Dict
  client : Option GClient
  effects : List Effect

/-- The failure envelope produced by the `except` clauses shared by every
handler except `update_menstrual_cycle`: `ConnectionError` and the three
Garmin errors are matched by their own clauses (the latter with the
"Garmin API error: " prefix), everything else falls to `except Exception`
with the bare message. -/
def excEnvelope (e : Exc) : Dict :=
  match e with
  | .connectionError m => [("success", .bool false), ("error", .str m)]
  | .garminAuth m =>
    [("success", .bool false), ("error", .str ("Garmin API error: " ++ m))]
  | .garminConn m =>
    [("success", .bool false), ("error", .str ("Garmin API error: " ++ m))]
  | .garminRate m =>
    [("success", .bool false), ("error", .str ("Garmin API error: " ++ m))]
  | .valueError m => [("success", .bool false), ("error", .str m)]
  | .other m => [("success", .bool false), ("error", .str m)]

/-- The failure envelope of `update_menstrual_cycle`, which additionally
catches `ValueError` with an "Invalid date format: " prefix. -/
def excEnvelopeUMC (e : Exc) : Dict :=
  match e with
  | .connectionError m => [("success", .bool false), ("error", .str m)]
  | .garminAuth m =>
    [("success", .bool false), ("error", .str ("Garmin API error: " ++ m))]
  | .garminConn m =>
    [("success", .bool false), ("error", .str ("Garmin API error: " ++ m))]
  | .garminRate m =>
    [("success", .bool false), ("error", .str ("Garmin API error: " ++ m))]
  | .valueError m =>
    [("success", .bool false), ("error", .str ("Invalid date format: " ++ m))]
  | .other m => [("success", .bool false), ("error", .str m)]

/- ## Tool handlers -/

/-- Python `obj.get(key, default)`: dictionary lookup with default; calling
`.get` on a non-dictionary raises `AttributeError` (caught by a handler's
`except Exception`). -/
def pyget (v : JVal) (k : String) (dflt : JVal) : Except Exc JVal :=
  match v with
  | .obj fields => .ok ((fields.lookup k).getD dflt)
  | _ => .error (.other "AttributeError: object has no attribute get")

/-- Python `len(v)`: defined on lists, dictionaries and strings; raises
`TypeError` otherwise. -/
def pylen (v : JVal) : Except Exc Int :=
  match v with
  | .arr xs => .ok xs.length
  | .obj fields => .ok fields.length
  | .str s => .ok s.length
  | _ => .error (.other "TypeError: object has no len")

/-- The body shared by the eight single-call read handlers
(`get_daily_summary`, `get_heart_rate`, `get_resting_heart_rate`,
`get_stress`, `get_steps`, `get_menstrual_cycle`, `get_hrv`,
`get_hydration`): resolve the date, acquire the client, perform one remote
call, and wrap the payload unmodified under `data`. -/
def simple_read (env : Env) (st : Option GClient) (d : Option String)
    (mk : String → RemoteCall) : HandlerOut :=
  let cdate := resolve_date env d
  match get_client env st with
  | (.error e, st2, tr) => ⟨excEnvelope e, st2, .getClient :: tr⟩
  | (.ok _, st2, tr) =>
    match env.remote (mk cdate) with
    | .ok v =>
      ⟨[("success", .bool true), ("date", .str cdate), ("data", v)],
        st2, .getClient :: tr ++ [.remote (mk cdate)]⟩
    | .error e =>
      ⟨excEnvelope e, st2, .getClient :: tr ++ [.remote (mk cdate)]⟩

/-- `get_daily_summary` (`server.py` lines 86-109). -/
def get_daily_summary (env : Env) (st : Option GClient)
    (date : Option String) : HandlerOut :=
  simple_read env st date RemoteCall.get_user_summary

/-- `get_heart_rate` (`server.py` lines 236-258). -/
def get_heart_rate (env : Env) (st : Option GClient)
    (date : Option String) : HandlerOut :=
  simple_read env st date RemoteCall.get_heart_rates

/-- `get_resting_heart_rate` (`server.py` lines 261-283). -/
def get_resting_heart_rate (env : Env) (st : Option GClient)
    (date : Option String) : HandlerOut :=
  simple_read env st date RemoteCall.get_rhr_day

/-- `get_stress` (`server.py` lines 286-309). -/
def get_stress (env : Env) (st : Option GClient)
    (date : Option String) : HandlerOut :=
  simple_read env st date RemoteCall.get_stress_data

/-- `get_steps` (`server.py` lines 312-334). -/
def get_steps (env : Env) (st : Option GClient)
    (date : Option String) : HandlerOut :=
  simple_read env st date RemoteCall.get_steps_data

/-- `get_menstrual_cycle` (`server.py` lines 337-359). -/
def get_menstrual_cycle (env : Env) (st : Option GClient)
    (date : Option String) : HandlerOut :=
  simple_read env st date RemoteCall.get_menstrual_data_for_date

/-- `get_hrv` (`server.py` lines 426-449). -/
def get_hrv (env : Env) (st : Option GClient)
    (date : Option String) : HandlerOut :=
  simple_read env st date RemoteCall.get_hrv_data

/-- `get_hydration` (`server.py` lines 452-475). -/
def get_hydration (env : Env) (st : Option GClient)
    (date : Option String) : HandlerOut :=
  simple_read env st date RemoteCall.get_hydration_data

/-- `get_body_battery` (`server.py` lines 112-141): two remote calls
(levels and events), merged into one envelope under the keys `battery` and
`events`. -/
def get_body_battery (env : Env) (st : Option GClient)
    (date : Option String) : HandlerOut :=
  let cdate := resolve_date env date
  match get_client env st with
  | (.error e, st2, tr) => ⟨excEnvelope e, st2, .getClient :: tr⟩
  | (.ok _, st2, tr) =>
    match env.remote (.get_body_battery cdate) with
    | .error e =>
      ⟨excEnvelope e, st2,
        .getClient :: tr ++ [.remote (.get_body_battery cdate)]⟩
    | .ok battery =>
      match env.remote (.get_body_battery_events cdate) with
      | .error e =>
        ⟨excEnvelope e, st2,
          .getClient :: tr ++ [.remote (.get_body_battery cdate),
                               .remote (.get_body_battery_events cdate)]⟩
      | .ok events =>
        ⟨[("success", .bool true), ("date", .str cdate),
          ("battery", battery), ("events", events)],
          st2, .getClient :: tr ++ [.remote (.get_body_battery cdate),
                                    .remote (.get_body_battery_events cdate)]⟩

/-- The sleep-summary projection of `get_sleep_data` (`server.py` lines
158-182): the fixed set of scalar fields (plus the per-stage level
sequence) extracted from the full sleep payload. -/
def sleep_summary_of (sleep : JVal) : Except Exc Dict :=
  (pyget sleep "dailySleepDTO" (.obj [])).bind fun dto =>
  (pyget dto "sleepScores" (.obj [])).bind fun scores =>
  (pyget sleep "sleepLevels" (.arr [])).bind fun levels =>
  (pyget scores "overall" (.obj [])).bind fun overall =>
  (pyget dto "calendarDate" .null).bind fun calendarDate =>
  (pyget overall "value" .null).bind fun sleepScore =>
  (pyget overall "qualifierKey" .null).bind fun sleepQuality =>
  (pyget dto "sleepStartTimestampLocal" .null).bind fun sleepStartLocal =>
  (pyget dto "sleepEndTimestampLocal" .null).bind fun sleepEndLocal =>
  (pyget dto "sleepTimeSeconds" .null).bind fun sleepDurationSecs =>
  (pyget dto "deepSleepSeconds" .null).bind fun deepSleepSecs =>
  (pyget dto "lightSleepSeconds" .null).bind fun lightSleepSecs =>
  (pyget dto "remSleepSeconds" .null).bind fun remSleepSecs =>
  (pyget dto "awakeSleepSeconds" .null).bind fun awakeSleepSecs =>
  (pyget dto "averageSpO2Value" .null).bind fun averageSpO2 =>
  (pyget dto "lowestSpO2Value" .null).bind fun lowestSpO2 =>
  (pyget dto "averageRespirationValue" .null).bind fun averageRespiration =>
  (pyget sleep "restingHeartRate" .null).bind fun restingHeartRate =>
  (pyget sleep "avgOvernightHrv" .null).bind fun avgOvernightHrv =>
  (pyget sleep "hrvStatus" .null).bind fun hrvStatus =>
  (pyget sleep "bodyBatteryChange" .null).bind fun bodyBatteryChange =>
  (pyget sleep "restlessMomentsCount" .null).bind fun restlessMomentsCount =>
  .ok
    [("calendarDate", calendarDate),
     ("sleepScore", sleepScore),
     ("sleepQuality", sleepQuality),
     ("sleepStartLocal", sleepStartLocal),
     ("sleepEndLocal", sleepEndLocal),
     ("sleepDurationSecs", sleepDurationSecs),
     ("deepSleepSecs", deepSleepSecs),
     ("lightSleepSecs", lightSleepSecs),
     ("remSleepSecs", remSleepSecs),
     ("awakeSleepSecs", awakeSleepSecs),
     ("averageSpO2", averageSpO2),
     ("lowestSpO2", lowestSpO2),
     ("averageRespiration", averageRespiration),
     ("restingHeartRate", restingHeartRate),
     ("avgOvernightHrv", avgOvernightHrv),
     ("hrvStatus", hrvStatus),
     ("bodyBatteryChange", bodyBatteryChange),
     ("restlessMomentsCount", restlessMomentsCount),
     ("sleepLevels", levels)]

/-- `get_sleep_data` (`server.py` lines 144-194): fetch the sleep payload
and return the lossy summary projection. -/
def get_sleep_data (env : Env) (st : Option GClient)
    (date : Option String) : HandlerOut :=
  let cdate := resolve_date env date
  match get_client env st with
  | (.error e, st2, tr) => ⟨excEnvelope e, st2, .getClient :: tr⟩
  | (.ok _, st2, tr) =>
    match env.remote (.get_sleep_data cdate) with
    | .error e =>
      ⟨excEnvelope e, st2,
        .getClient :: tr ++ [.remote (.get_sleep_data cdate)]⟩
    | .ok sleep =>
      match sleep_summary_of sleep with
      | .error e =>
        ⟨excEnvelope e, st2,
          .getClient :: tr ++ [.remote (.get_sleep_data cdate)]⟩
      | .ok summary =>
        ⟨[("success", .bool true), ("date", .str cdate),
          ("data", .obj summary)],
          st2, .getClient :: tr ++ [.remote (.get_sleep_data cdate)]⟩

/-- The sleep-detail projection of `get_sleep_detail` (`server.py` lines
212-221): the per-minute/per-epoch time series. -/
def sleep_detail_of (sleep : JVal) : Except Exc Dict :=
  (pyget sleep "sleepMovement" .null).bind fun sleepMovement =>
  (pyget sleep "sleepHeartRate" .null).bind fun sleepHeartRate =>
  (pyget sleep "sleepStress" .null).bind fun sleepStress =>
  (pyget sleep "sleepBodyBattery" .null).bind fun sleepBodyBattery =>
  (pyget sleep "hrvData" .null).bind fun hrvData =>
  (pyget sleep "wellnessEpochSPO2DataDTOList" .null).bind fun spO2Data =>
  (pyget sleep "wellnessEpochRespirationDataDTOList" .null).bind
    fun respirationData =>
  (pyget sleep "sleepRestlessMoments" .null).bind fun restlessMoments =>
  .ok
    [("sleepMovement", sleepMovement),
     ("sleepHeartRate", sleepHeartRate),
     ("sleepStress", sleepStress),
     ("sleepBodyBattery", sleepBodyBattery),
     ("hrvData", hrvData),
     ("spO2Data", spO2Data),
     ("respirationData", respirationData),
     ("restlessMoments", restlessMoments)]

/-- `get_sleep_detail` (`server.py` lines 197-233). -/
def get_sleep_detail (env : Env) (st : Option GClient)
    (date : Option String) : HandlerOut :=
  let cdate := resolve_date env date
  match get_client env st with
  | (.error e, st2, tr) => ⟨excEnvelope e, st2, .getClient :: tr⟩
  | (.ok _, st2, tr) =>
    match env.remote (.get_sleep_data cdate) with
    | .error e =>
      ⟨excEnvelope e, st2,
        .getClient :: tr ++ [.remote (.get_sleep_data cdate)]⟩
    | .ok sleep =>
      match sleep_detail_of sleep with
      | .error e =>
        ⟨excEnvelope e, st2,
          .getClient :: tr ++ [.remote (.get_sleep_data cdate)]⟩
      | .ok detail =>
        ⟨[("success", .bool true), ("date", .str cdate),
          ("data", .obj detail)],
          st2, .getClient :: tr ++ [.remote (.get_sleep_data cdate)]⟩

/-- `add_hydration` (`server.py` lines 478-505): one remote write, echoing
the amount and a message alongside the remote result. -/
def add_hydration (env : Env) (st : Option GClient)
    (amount_ml : Int) : HandlerOut :=
  match get_client env st with
  | (.error e, st2, tr) => ⟨excEnvelope e, st2, .getClient :: tr⟩
  | (.ok _, st2, tr) =>
    match env.remote (.add_hydration_data (.num amount_ml)) with
    | .error e =>
      ⟨excEnvelope e, st2,
        .getClient :: tr ++ [.remote (.add_hydration_data (.num amount_ml))]⟩
    | .ok result =>
      ⟨[("success", .bool true), ("logged_ml", .num amount_ml),
        ("message", .str ("Logged " ++ toString amount_ml ++ "ml of water")),
        ("data", result)],
        st2, .getClient :: tr ++ [.remote (.add_hydration_data (.num amount_ml))]⟩

/-- `get_activities` (`server.py` lines 508-529): one remote read plus a
`count` computed by `len`. -/
def get_activities (env : Env) (st : Option GClient)
    (limit : Int) : HandlerOut :=
  match get_client env st with
  | (.error e, st2, tr) => ⟨excEnvelope e, st2, .getClient :: tr⟩
  | (.ok _, st2, tr) =>
    match env.remote (.get_activities 0 limit) with
    | .error e =>
      ⟨excEnvelope e, st2,
        .getClient :: tr ++ [.remote (.get_activities 0 limit)]⟩
    | .ok activities =>
      match pylen activities with
      | .error e =>
        ⟨excEnvelope e, st2,
          .getClient :: tr ++ [.remote (.get_activities 0 limit)]⟩
      | .ok n =>
        ⟨[("success", .bool true), ("count", .num n), ("data", activities)],
          st2, .getClient :: tr ++ [.remote (.get_activities 0 limit)]⟩

/-- The JSON payload `update_menstrual_cycle` posts (`server.py` lines
395-403). -/
def menstrual_payload (env : Env) (start_date end_date : String)
    (cycle_dates : List String) : JVal :=
  .obj
    [("userProfilePk", .num env.userProfilePk),
     ("todayCalendarDate", .str env.today),
     ("startDate", .str start_date),
     ("endDate", .str end_date),
     ("futureEditsByFE", .bool true),
     ("reportTimestamp", .str env.now),
     ("cycleDatesLists", .arr [.arr (cycle_dates.map .str)])]

/-- `update_menstrual_cycle` (`server.py` lines 366-423): acquire the
client, parse both dates (raising `ValueError` into the "Invalid date
format" clause), reject `end < start`, expand the inclusive date range,
post the calendar-update payload, and report the day count and date list. -/
def update_menstrual_cycle (env : Env) (st : Option GClient)
    (start_date end_date : String) : HandlerOut :=
  match get_client env st with
  | (.error e, st2, tr) => ⟨excEnvelopeUMC e, st2, .getClient :: tr⟩
  | (.ok _, st2, tr) =>
    match strptime_ymd start_date with
    | .error e => ⟨excEnvelopeUMC e, st2, .getClient :: tr⟩
    | .ok startD =>
      match strptime_ymd end_date with
      | .error e => ⟨excEnvelopeUMC e, st2, .getClient :: tr⟩
      | .ok endD =>
        if Date.blt endD startD then
          ⟨[("success", .bool false),
            ("error", .str "end_date must be on or after start_date")],
            st2, .getClient :: tr⟩
        else
          match cycleLoop startD endD with
          | .error e => ⟨excEnvelopeUMC e, st2, .getClient :: tr⟩
          | .ok cycle_dates =>
            let payload := menstrual_payload env start_date end_date cycle_dates
            match env.remote (.connectapi MENSTRUAL_CALENDAR_URL payload) with
            | .error e =>
              ⟨excEnvelopeUMC e, st2,
                .getClient :: tr
                  ++ [.remote (.connectapi MENSTRUAL_CALENDAR_URL payload)]⟩
            | .ok _ =>
              ⟨[("success", .bool true),
                ("message", .str ("Period logged: " ++ start_date ++ " to "
                  ++ end_date ++ " (" ++ toString cycle_dates.length
                  ++ " days)")),
                ("dates", .arr (cycle_dates.map .str))],
                st2, .getClient :: tr
                  ++ [.remote (.connectapi MENSTRUAL_CALENDAR_URL payload)]⟩

/- ## Statement-level helpers and concrete test worlds -/

/-- The top-level keys of a result dictionary. -/
def keysOf (d : Dict) : List String := d.map Prod.fst

/-- A failure envelope: `success` false together with a single
human-readable `error` string and nothing else. -/
def isFailureEnvelope (d : Dict) : Prop :=
  ∃ m, d = [("success", JVal.bool false), ("error", JVal.str m)]

/-- The envelope contract: the result either reports success, or is a
failure envelope (`success: false` with a single string `error`). -/
def uniformEnvelope (o : HandlerOut) : Prop :=
  List.lookup "success" o.result = some (JVal.bool true)
    ∨ isFailureEnvelope o.result

/-- Effects that touch the network (either login tier, or a data call). -/
def isRemoteEffect : Effect → Bool
  | .tokenLogin _ => true
  | .credLogin _ _ => true
  | .remote _ => true
  | _ => false

/-- Effects that are remote data calls issued by a handler body. -/
def isDataCall : Effect → Bool
  | .remote _ => true
  | _ => false

/-- `n` successive `get_client()` calls, threading the module-level client
and concatenating the effect traces. -/
def get_client_iter (env : Env) : Nat → Option GClient → Option GClient × List Effect
  | 0, st => (st, [])
  | n + 1, st =>
    let r := get_client env st
    let rest := get_client_iter env n r.2.1
    (rest.1, r.2.2 ++ rest.2)

/-- A test world: token store present, token login succeeds, every remote
call returns `null`. -/
def okEnv : Env where
  tokenstoreExists := true
  tokenClient := 1
  tokenLoginResult := .ok ()
  email := none
  password := none
  credClient := 2
  credLoginResult := .error (.other "no credentials")
  remote := fun _ => .ok .null
  today := "2025-01-15"
  now := "2025-01-15T12:00:00.000"
  userProfilePk := 0

/-- A test world with neither a token store nor configured credentials. -/
def noAuthEnv : Env := { okEnv with tokenstoreExists := false }

/- ## Calendar theory: `nextDay` advances the day ordinal by one -/

theorem cycleLoop_step (c e : Date) :
    cycleLoop c e =
      if Date.ble c e = true then
        if c = maxDate then .error (.other "date value out of range")
        else
          match cycleLoop (nextDay c) e with
          | .error exc => .error exc
          | .ok rest => .ok (Date.isoformat c :: rest)
      else .ok [] := by
  rw [cycleLoop]
  rfl

theorem daysInMonth_le_31 (y m : Nat) : daysInMonth y m ≤ 31 := by
  unfold daysInMonth
  split <;> first | omega | (split <;> omega)

theorem daysInMonth_pos (y m : Nat) (h1 : 1 ≤ m) (h2 : m ≤ 12) :
    1 ≤ daysInMonth y m := by
  interval_cases m <;> simp only [daysInMonth] <;> (try split) <;> norm_num

theorem daysInMonth_12 (y : Nat) : daysInMonth y 12 = 31 := rfl

theorem date_eq_of_fields {a b : Date} (hy : a.year = b.year)
    (hm : a.month = b.month) (hd : a.day = b.day) : a = b := by
  cases a; cases b; simp_all

theorem ble_iff (a b : Date) :
    Date.ble a b = true ↔
      a.year < b.year ∨ (a.year = b.year ∧ (a.month < b.month ∨
        (a.month = b.month ∧ a.day ≤ b.day))) := by
  unfold Date.ble
  split_ifs <;> simp <;> omega

theorem blt_iff (a b : Date) :
    Date.blt a b = true ↔
      a.year < b.year ∨ (a.year = b.year ∧ (a.month < b.month ∨
        (a.month = b.month ∧ a.day < b.day))) := by
  unfold Date.blt
  split_ifs <;> simp <;> omega

theorem blt_of_not_ble {a b : Date} (h : ¬ Date.ble a b = true) :
    Date.blt b a = true := by
  rw [ble_iff] at h
  rw [blt_iff]
  omega

theorem blt_of_ble_ne {a b : Date} (h : Date.ble a b = true) (hne : a ≠ b) :
    Date.blt a b = true := by
  by_contra hnb
  rw [blt_iff] at hnb
  rw [ble_iff] at h
  exact hne (date_eq_of_fields (by omega) (by omega) (by omega))

theorem ble_antisymm {a b : Date} (h1 : Date.ble a b = true)
    (h2 : Date.ble b a = true) : a = b := by
  rw [ble_iff] at h1 h2
  exact date_eq_of_fields (by omega) (by omega) (by omega)

theorem daysBeforeMonth_succ (y m : Nat) :
    daysBeforeMonth y (m + 1) = daysBeforeMonth y m + daysInMonth y m := rfl

theorem daysBeforeMonth_mono (y : Nat) {m m' : Nat} (h : m ≤ m') :
    daysBeforeMonth y m ≤ daysBeforeMonth y m' := by
  obtain ⟨k, rfl⟩ := Nat.exists_eq_add_of_le h
  induction k with
  | zero => simp
  | succ k ih =>
    have : m + (k + 1) = (m + k) + 1 := rfl
    rw [this, daysBeforeMonth_succ]
    omega

theorem daysBeforeMonth_13 (y : Nat) :
    daysBeforeMonth y 13 = daysInYear y := by
  unfold daysInYear
  cases h : isLeap y <;>
    simp [daysBeforeMonth, daysInMonth, h]

theorem daysBeforeYear_succ (y : Nat) :
    daysBeforeYear (y + 1) = daysBeforeYear y + daysInYear y := rfl

theorem daysBeforeYear_mono {y y' : Nat} (h : y ≤ y') :
    daysBeforeYear y ≤ daysBeforeYear y' := by
  obtain ⟨k, rfl⟩ := Nat.exists_eq_add_of_le h
  induction k with
  | zero => simp
  | succ k ih =>
    have : y + (k + 1) = (y + k) + 1 := rfl
    rw [this, daysBeforeYear_succ]
    omega

theorem daysBeforeMonth_add_day_le {y m d : Nat} (hm : m ≤ 12)
    (hd : d ≤ daysInMonth y m) :
    daysBeforeMonth y m + d ≤ daysInYear y := by
  have h1 : daysBeforeMonth y m + d ≤ daysBeforeMonth y (m + 1) := by
    rw [daysBeforeMonth_succ]; omega
  have h2 : daysBeforeMonth y (m + 1) ≤ daysBeforeMonth y 13 :=
    daysBeforeMonth_mono y (by omega)
  rw [daysBeforeMonth_13] at h2
  omega

theorem toOrdinal_nextDay {c : Date} (h : c.Valid) :
    (nextDay c).toOrdinal = c.toOrdinal + 1 := by
  obtain ⟨h1, h2, h3, h4, h5, h6⟩ := h
  unfold nextDay
  split
  · unfold Date.toOrdinal
    dsimp only
    omega
  · split
    · unfold Date.toOrdinal
      dsimp only
      rw [daysBeforeMonth_succ]
      omega
    · unfold Date.toOrdinal
      dsimp only
      rename_i hA hB
      have hm12 : c.month = 12 := by omega
      rw [hm12] at hA ⊢
      have hd : c.day ≤ daysInMonth c.year 12 := hm12 ▸ h6
      have e1 : daysBeforeYear (c.year + 1)
          = daysBeforeYear c.year + daysInYear c.year := rfl
      have e2 : daysBeforeMonth (c.year + 1) 1 = 0 := rfl
      have e3 : daysInYear c.year
          = daysBeforeMonth c.year 12 + daysInMonth c.year 12 := by
        rw [← daysBeforeMonth_13]
        rfl
      omega

theorem toOrdinal_lt {a b : Date} (ha : a.Valid) (hb : b.Valid)
    (h : Date.blt a b = true) : a.toOrdinal < b.toOrdinal := by
  obtain ⟨a1, a2, a3, a4, a5, a6⟩ := ha
  obtain ⟨b1, b2, b3, b4, b5, b6⟩ := hb
  rw [blt_iff] at h
  unfold Date.toOrdinal
  rcases h with hy | ⟨hy, hm | ⟨hm, hd⟩⟩
  · have k1 : daysBeforeMonth a.year a.month + a.day ≤ daysInYear a.year :=
      daysBeforeMonth_add_day_le a4 a6
    have k2 : daysBeforeYear (a.year + 1)
        = daysBeforeYear a.year + daysInYear a.year := rfl
    have k3 : daysBeforeYear (a.year + 1) ≤ daysBeforeYear b.year :=
      daysBeforeYear_mono (by omega)
    omega
  · have k1 : daysBeforeMonth a.year a.month + a.day
        ≤ daysBeforeMonth a.year (a.month + 1) := by
      rw [daysBeforeMonth_succ]; omega
    have k2 : daysBeforeMonth a.year (a.month + 1)
        ≤ daysBeforeMonth a.year b.month :=
      daysBeforeMonth_mono a.year (by omega)
    rw [hy] at k1 k2
    rw [hy]
    omega
  · rw [hy, hm]
    omega

theorem ble_iff_toOrdinal {a b : Date} (ha : a.Valid) (hb : b.Valid) :
    Date.ble a b = true ↔ a.toOrdinal ≤ b.toOrdinal := by
  constructor
  · intro h
    by_cases he : a = b
    · rw [he]
    · exact le_of_lt (toOrdinal_lt ha hb (blt_of_ble_ne h he))
  · intro h
    by_contra hn
    have := toOrdinal_lt hb ha (blt_of_not_ble hn)
    omega

theorem toOrdinal_inj {a b : Date} (ha : a.Valid) (hb : b.Valid)
    (h : a.toOrdinal = b.toOrdinal) : a = b := by
  by_contra hne
  by_cases hab : Date.ble a b = true
  · have := toOrdinal_lt ha hb (blt_of_ble_ne hab hne)
    omega
  · have := toOrdinal_lt hb ha (blt_of_not_ble hab)
    omega

theorem valid_ble_max {b : Date} (hb : b.Valid) :
    Date.ble b maxDate = true := by
  obtain ⟨b1, b2, b3, b4, b5, b6⟩ := hb
  have h31 : daysInMonth b.year b.month ≤ 31 := daysInMonth_le_31 _ _
  rw [ble_iff]
  show b.year < 9999 ∨ b.year = 9999 ∧ (b.month < 12 ∨ b.month = 12 ∧ b.day ≤ 31)
  omega

theorem ne_max_of_blt {a b : Date} (hb : b.Valid)
    (h : Date.blt a b = true) : a ≠ maxDate := by
  intro he
  subst he
  have h2 := valid_ble_max hb
  rw [blt_iff] at h
  rw [ble_iff] at h2
  have e1 : maxDate.year = 9999 := rfl
  have e2 : maxDate.month = 12 := rfl
  have e3 : maxDate.day = 31 := rfl
  omega

theorem nextDay_valid {c : Date} (h : c.Valid) (hne : c ≠ maxDate) :
    (nextDay c).Valid := by
  obtain ⟨h1, h2, h3, h4, h5, h6⟩ := h
  unfold nextDay
  split
  · rename_i hA
    unfold Date.Valid
    dsimp only
    omega
  · split
    · rename_i hA hB
      have hp : 1 ≤ daysInMonth c.year (c.month + 1) :=
        daysInMonth_pos c.year (c.month + 1) (by omega) (by omega)
      unfold Date.Valid
      dsimp only
      omega
    · rename_i hA hB
      have hm12 : c.month = 12 := by omega
      have hd31 : c.day = 31 := by
        have h12 := daysInMonth_12 c.year
        rw [hm12] at hA h6
        omega
      have hy : c.year < 9999 := by
        rcases Nat.lt_or_ge c.year 9999 with hlt | hge
        · exact hlt
        · refine absurd (date_eq_of_fields ?_ hm12 hd31) hne
          have e : maxDate.year = 9999 := rfl
          omega
      have h31 : daysInMonth (c.year + 1) 1 = 31 := rfl
      unfold Date.Valid
      dsimp only
      omega

theorem blt_nextDay_ble {a b : Date} (ha : a.Valid) (hb : b.Valid)
    (h : Date.blt a b = true) : Date.ble (nextDay a) b = true := by
  have hne : a ≠ maxDate := ne_max_of_blt hb h
  have hnv : (nextDay a).Valid := nextDay_valid ha hne
  have hord : (nextDay a).toOrdinal = a.toOrdinal + 1 := toOrdinal_nextDay ha
  have hlt : a.toOrdinal < b.toOrdinal := toOrdinal_lt ha hb h
  rw [ble_iff_toOrdinal hnv hb]
  omega

/-- The date loop, fully characterised below its overflow bound: for valid
`c <= e` with `e` before `date.max`, it succeeds with the list whose `i`-th
entry is the isoformat of `c` advanced by `i` days, of length
`e.toOrdinal + 1 - c.toOrdinal`. -/
theorem cycleLoop_spec {e : Date} (he : e.Valid) (hnem : e ≠ maxDate) :
    ∀ n c, c.Valid → Date.ble c e = true → e.toOrdinal - c.toOrdinal = n →
      ∃ l, cycleLoop c e = .ok l ∧
        l.length = e.toOrdinal + 1 - c.toOrdinal ∧
        ∀ i, ∀ h : i < l.length,
          l.get ⟨i, h⟩ = Date.isoformat (nextDay^[i] c) := by
  intro n
  induction n using Nat.strong_induction_on with
  | _ n ih =>
    intro c hc hle hn
    have hce : c.toOrdinal ≤ e.toOrdinal := (ble_iff_toOrdinal hc he).1 hle
    have hcm : c ≠ maxDate := by
      intro hceq
      subst hceq
      exact hnem (ble_antisymm (valid_ble_max he) hle)
    have hnv : (nextDay c).Valid := nextDay_valid hc hcm
    have hord : (nextDay c).toOrdinal = c.toOrdinal + 1 := toOrdinal_nextDay hc
    rw [cycleLoop_step, if_pos hle, if_neg hcm]
    by_cases hnle : Date.ble (nextDay c) e = true
    · have h1e : (nextDay c).toOrdinal ≤ e.toOrdinal :=
        (ble_iff_toOrdinal hnv he).1 hnle
      obtain ⟨l, hl, hlen, hidx⟩ :=
        ih (n - 1) (by omega) (nextDay c) hnv hnle (by omega)
      rw [hl]
      refine ⟨Date.isoformat c :: l, rfl, ?_, ?_⟩
      · simp only [List.length_cons, hlen]
        omega
      · intro i h
        cases i with
        | zero => simp
        | succ i =>
          have hi : i < l.length := by
            simp only [List.length_cons] at h
            omega
          have hstep : (Date.isoformat c :: l).get ⟨i + 1, h⟩ = l.get ⟨i, hi⟩ :=
            rfl
          rw [hstep, hidx i hi, Function.iterate_succ_apply]
    · have hblt : Date.blt e (nextDay c) = true := blt_of_not_ble hnle
      have h3 : e.toOrdinal < (nextDay c).toOrdinal := toOrdinal_lt he hnv hblt
      rw [cycleLoop_step, if_neg hnle]
      refine ⟨[Date.isoformat c], rfl, ?_, ?_⟩
      · simp only [List.length_singleton]
        omega
      · intro i h
        have hi0 : i = 0 := by
          simp only [List.length_singleton] at h
          omega
        subst hi0
        simp

/-- Every valid date at or after `c` is reached by iterating `nextDay` for
the ordinal difference. -/
theorem nextDay_iterate_reach {x : Date} (hx : x.Valid) :
    ∀ n c, c.Valid → Date.ble c x = true → x.toOrdinal - c.toOrdinal = n →
      nextDay^[n] c = x := by
  intro n
  induction n using Nat.strong_induction_on with
  | _ n ih =>
    intro c hc hle hn
    have hce : c.toOrdinal ≤ x.toOrdinal := (ble_iff_toOrdinal hc hx).1 hle
    cases n with
    | zero =>
      have heq : c.toOrdinal = x.toOrdinal := by omega
      simpa using toOrdinal_inj hc hx heq
    | succ n =>
      have hne : c ≠ x := by
        intro he
        rw [he] at hn
        omega
      have hblt := blt_of_ble_ne hle hne
      have hcm : c ≠ maxDate := ne_max_of_blt hx hblt
      have hnv := nextDay_valid hc hcm
      have hord := toOrdinal_nextDay hc
      have hlt := toOrdinal_lt hc hx hblt
      have hnle := blt_nextDay_ble hc hx hblt
      rw [Function.iterate_succ_apply]
      exact ih n (Nat.lt_succ_self n) (nextDay c) hnv hnle (by omega)

/- ## Envelope shape of every handler -/

theorem excEnvelope_failure (e : Exc) : isFailureEnvelope (excEnvelope e) := by
  cases e <;> exact ⟨_, rfl⟩

theorem excEnvelopeUMC_failure (e : Exc) :
    isFailureEnvelope (excEnvelopeUMC e) := by
  cases e <;> exact ⟨_, rfl⟩

theorem simple_read_cases (env : Env) (st : Option GClient)
    (d : Option String) (mk : String → RemoteCall) :
    (∃ v, (simple_read env st d mk).result =
        [("success", JVal.bool true), ("date", JVal.str (resolve_date env d)),
         ("data", v)])
    ∨ isFailureEnvelope (simple_read env st d mk).result := by
  simp only [simple_read]
  rcases hgc : get_client env st with ⟨res, st2, tr⟩
  cases res with
  | error e =>
    right
    exact excEnvelope_failure e
  | ok c =>
    cases hr : env.remote (mk (resolve_date env d)) with
    | error e =>
      right
      exact excEnvelope_failure e
    | ok v =>
      left
      exact ⟨v, rfl⟩

theorem get_body_battery_cases (env : Env) (st : Option GClient)
    (d : Option String) :
    (∃ b ev, (get_body_battery env st d).result =
        [("success", JVal.bool true), ("date", JVal.str (resolve_date env d)),
         ("battery", b), ("events", ev)])
    ∨ isFailureEnvelope (get_body_battery env st d).result := by
  simp only [get_body_battery]
  rcases hgc : get_client env st with ⟨res, st2, tr⟩
  cases res with
  | error e =>
    right
    exact excEnvelope_failure e
  | ok c =>
    cases hr : env.remote (.get_body_battery (resolve_date env d)) with
    | error e =>
      right
      exact excEnvelope_failure e
    | ok b =>
      dsimp only
      cases hr2 : env.remote (.get_body_battery_events (resolve_date env d)) with
      | error e =>
        right
        exact excEnvelope_failure e
      | ok ev =>
        left
        exact ⟨b, ev, rfl⟩

theorem get_sleep_data_cases (env : Env) (st : Option GClient)
    (d : Option String) :
    (∃ s, (get_sleep_data env st d).result =
        [("success", JVal.bool true), ("date", JVal.str (resolve_date env d)),
         ("data", JVal.obj s)])
    ∨ isFailureEnvelope (get_sleep_data env st d).result := by
  simp only [get_sleep_data]
  rcases hgc : get_client env st with ⟨res, st2, tr⟩
  cases res with
  | error e =>
    right
    exact excEnvelope_failure e
  | ok c =>
    cases hr : env.remote (.get_sleep_data (resolve_date env d)) with
    | error e =>
      right
      exact excEnvelope_failure e
    | ok sleep =>
      dsimp only
      cases hs : sleep_summary_of sleep with
      | error e =>
        right
        exact excEnvelope_failure e
      | ok s =>
        left
        exact ⟨s, rfl⟩

theorem get_sleep_detail_cases (env : Env) (st : Option GClient)
    (d : Option String) :
    (∃ s, (get_sleep_detail env st d).result =
        [("success", JVal.bool true), ("date", JVal.str (resolve_date env d)),
         ("data", JVal.obj s)])
    ∨ isFailureEnvelope (get_sleep_detail env st d).result := by
  simp only [get_sleep_detail]
  rcases hgc : get_client env st with ⟨res, st2, tr⟩
  cases res with
  | error e =>
    right
    exact excEnvelope_failure e
  | ok c =>
    cases hr : env.remote (.get_sleep_data (resolve_date env d)) with
    | error e =>
      right
      exact excEnvelope_failure e
    | ok sleep =>
      dsimp only
      cases hs : sleep_detail_of sleep with
      | error e =>
        right
        exact excEnvelope_failure e
      | ok s =>
        left
        exact ⟨s, rfl⟩

theorem add_hydration_cases (env : Env) (st : Option GClient)
    (amount_ml : Int) :
    (∃ v, (add_hydration env st amount_ml).result =
        [("success", JVal.bool true), ("logged_ml", JVal.num amount_ml),
         ("message",
          JVal.str ("Logged " ++ toString amount_ml ++ "ml of water")),
         ("data", v)])
    ∨ isFailureEnvelope (add_hydration env st amount_ml).result := by
  simp only [add_hydration]
  rcases hgc : get_client env st with ⟨res, st2, tr⟩
  cases res with
  | error e =>
    right
    exact excEnvelope_failure e
  | ok c =>
    cases hr : env.remote (.add_hydration_data (.num amount_ml)) with
    | error e =>
      right
      exact excEnvelope_failure e
    | ok v =>
      left
      exact ⟨v, rfl⟩

theorem get_activities_cases (env : Env) (st : Option GClient)
    (limit : Int) :
    (∃ n v, (get_activities env st limit).result =
        [("success", JVal.bool true), ("count", JVal.num n), ("data", v)])
    ∨ isFailureEnvelope (get_activities env st limit).result := by
  simp only [get_activities]
  rcases hgc : get_client env st with ⟨res, st2, tr⟩
  cases res with
  | error e =>
    right
    exact excEnvelope_failure e
  | ok c =>
    cases hr : env.remote (.get_activities 0 limit) with
    | error e =>
      right
      exact excEnvelope_failure e
    | ok v =>
      dsimp only
      cases hl : pylen v with
      | error e =>
        right
        exact excEnvelope_failure e
      | ok n =>
        left
        exact ⟨n, v, rfl⟩

theorem update_menstrual_cycle_cases (env : Env) (st : Option GClient)
    (start_date end_date : String) :
    (∃ m dts, (update_menstrual_cycle env st start_date end_date).result =
        [("success", JVal.bool true), ("message", JVal.str m),
         ("dates", JVal.arr dts)])
    ∨ isFailureEnvelope (update_menstrual_cycle env st start_date end_date).result := by
  simp only [update_menstrual_cycle]
  rcases hgc : get_client env st with ⟨res, st2, tr⟩
  cases res with
  | error e =>
    right
    exact excEnvelopeUMC_failure e
  | ok c =>
    cases h1 : strptime_ymd start_date with
    | error e =>
      right
      exact excEnvelopeUMC_failure e
    | ok startD =>
      dsimp only
      cases h2 : strptime_ymd end_date with
      | error e =>
        right
        exact excEnvelopeUMC_failure e
      | ok endD =>
        dsimp only
        by_cases hlt : Date.blt endD startD = true
        · right
          rw [if_pos hlt]
          exact ⟨"end_date must be on or after start_date", rfl⟩
        · rw [if_neg hlt]
          cases hcl : cycleLoop startD endD with
          | error e =>
            right
            exact excEnvelopeUMC_failure e
          | ok cycle_dates =>
            dsimp only
            cases hrm : env.remote (.connectapi MENSTRUAL_CALENDAR_URL
                (menstrual_payload env start_date end_date cycle_dates)) with
            | error e =>
              right
              exact excEnvelopeUMC_failure e
            | ok v =>
              left
              exact ⟨_, _, rfl⟩

/- ## Claims -/

/-- C5: when the token store location exists and token authentication
succeeds, `init_client` returns the token-authenticated session, caches it,
performs exactly a token login followed by a token dump to the same store
location (persisting the refreshed tokens before caching and returning),
and never attempts credential authentication. -/
theorem C5_theorem (env : Env) (st : Option GClient)
    (h1 : env.tokenstoreExists = true)
    (h2 : env.tokenLoginResult = .ok ()) :
    init_client env st =
      (some env.tokenClient, some env.tokenClient,
        [Effect.tokenLogin TOKENSTORE, Effect.dumpTokens TOKENSTORE]) ∧
    ∀ em pw, Effect.credLogin em pw ∉ (init_client env st).2.2 := by
  have hmain : init_client env st =
      (some env.tokenClient, some env.tokenClient,
        [Effect.tokenLogin TOKENSTORE, Effect.dumpTokens TOKENSTORE]) := by
    simp [init_client, h1, h2]
  refine ⟨hmain, ?_⟩
  intro em pw
  rw [hmain]
  simp

/-- C5 witness: the concrete token-auth world. -/
theorem C5_witness :
    init_client okEnv none =
      (some okEnv.tokenClient, some okEnv.tokenClient,
        [Effect.tokenLogin TOKENSTORE, Effect.dumpTokens TOKENSTORE]) ∧
    ∀ em pw, Effect.credLogin em pw ∉ (init_client okEnv none).2.2 :=
  C5_theorem okEnv none rfl rfl

/-- C6: once a session is cached, `get_client` returns the cached session
unchanged with no effects at all (in particular no login), and arbitrarily
many repeated calls still produce no effects and leave the cache unchanged. -/
theorem C6_theorem (env : Env) (c : GClient) :
    get_client env (some c) = (.ok c, some c, []) ∧
    ∀ n, get_client_iter env n (some c) = (some c, []) := by
  refine ⟨rfl, ?_⟩
  intro n
  induction n with
  | zero => rfl
  | succ n ih => simp [get_client_iter, get_client, ih]

/-- C7: with no token store and at least one credential variable absent,
`init_client` yields no session without raising and with an empty effect
trace (no remote call); `get_client` then fails with the unauthenticated
`ConnectionError`, and `get_daily_summary` surfaces it as a `success: false`
envelope, still with no remote interaction. -/
theorem C7_theorem (env : Env) (st : Option GClient) (d : Option String)
    (h1 : env.tokenstoreExists = false)
    (h2 : env.email = none ∨ env.password = none) :
    init_client env st = (none, st, []) ∧
    get_client env none =
      (.error (.connectionError
        "Not authenticated. Run auth.py to set up Garmin credentials."),
        none, []) ∧
    (get_daily_summary env none d).result =
      [("success", JVal.bool false),
       ("error",
        JVal.str "Not authenticated. Run auth.py to set up Garmin credentials.")] ∧
    (get_daily_summary env none d).effects.filter isRemoteEffect = [] := by
  have hcred : (truthy env.email && truthy env.password) = false := by
    rcases h2 with h | h <;> simp [truthy, h]
  have hinit : ∀ st' : Option GClient, init_client env st' = (none, st', []) := by
    intro st'
    simp [init_client, h1, init_client_fallback, hcred]
  have hgc : get_client env none =
      (.error (.connectionError
        "Not authenticated. Run auth.py to set up Garmin credentials."),
        none, []) := by
    simp [get_client, hinit]
  refine ⟨hinit st, hgc, ?_, ?_⟩
  · simp [get_daily_summary, simple_read, hgc]
    rfl
  · simp [get_daily_summary, simple_read, hgc]
    rfl

/-- C7 witness: the concrete missing-everything world. -/
theorem C7_witness :
    init_client noAuthEnv none = (none, none, []) ∧
    get_client noAuthEnv none =
      (.error (.connectionError
        "Not authenticated. Run auth.py to set up Garmin credentials."),
        none, []) ∧
    (get_daily_summary noAuthEnv none none).result =
      [("success", JVal.bool false),
       ("error",
        JVal.str "Not authenticated. Run auth.py to set up Garmin credentials.")] ∧
    (get_daily_summary noAuthEnv none none).effects.filter isRemoteEffect = [] :=
  C7_theorem noAuthEnv none none rfl (Or.inl rfl)

/-- C10: `resolve_date` treats the empty string (and an absent date) as
falsy and resolves it to today; only non-empty strings are echoed back; a
handler called with `date=""` therefore queries today's data. -/
theorem C10_theorem (env : Env) (htoday : env.today ≠ "") :
    resolve_date env (some "") = env.today ∧
    resolve_date env none = env.today ∧
    (∀ s : String, s ≠ "" → resolve_date env (some s) = s) ∧
    (∀ s : String, resolve_date env (some s) = s → s ≠ "") ∧
    (∀ c : GClient, (get_daily_summary env (some c) (some "")).effects
        = [Effect.getClient, Effect.remote (.get_user_summary env.today)]) ∧
    (∀ (c : GClient) (v : JVal),
      env.remote (.get_user_summary env.today) = .ok v →
      (get_daily_summary env (some c) (some "")).result
        = [("success", JVal.bool true), ("date", JVal.str env.today),
           ("data", v)]) := by
  refine ⟨rfl, rfl, ?_, ?_, ?_, ?_⟩
  · intro s hs
    simp [resolve_date, hs]
  · intro s hres hs
    subst hs
    simp [resolve_date] at hres
    exact htoday hres
  · intro c
    have hres : resolve_date env (some "") = env.today := rfl
    cases hr : env.remote (.get_user_summary env.today) with
    | ok v =>
      simp [get_daily_summary, simple_read, get_client, hres, hr]
    | error e =>
      simp [get_daily_summary, simple_read, get_client, hres, hr]
  · intro c v hv
    have hres : resolve_date env (some "") = env.today := rfl
    simp [get_daily_summary, simple_read, get_client, hres, hv]

/-- C10 witness: the concrete world with today = 2025-01-15. -/
theorem C10_witness :
    resolve_date okEnv (some "") = okEnv.today ∧
    resolve_date okEnv none = okEnv.today ∧
    (∀ s : String, s ≠ "" → resolve_date okEnv (some s) = s) ∧
    (∀ s : String, resolve_date okEnv (some s) = s → s ≠ "") ∧
    (∀ c : GClient, (get_daily_summary okEnv (some c) (some "")).effects
        = [Effect.getClient, Effect.remote (.get_user_summary okEnv.today)]) ∧
    (∀ (c : GClient) (v : JVal),
      okEnv.remote (.get_user_summary okEnv.today) = .ok v →
      (get_daily_summary okEnv (some c) (some "")).result
        = [("success", JVal.bool true), ("date", JVal.str okEnv.today),
           ("data", v)]) :=
  C10_theorem okEnv (by decide)

/-- C4: every handler returns, for every environment and input, either a
`success: true` envelope or the failure envelope `success: false` with a
single string error message; since the embedded handlers are total
functions into result dictionaries, no exception propagates past any
handler boundary. -/
theorem C4_theorem :
    (∀ env st d, uniformEnvelope (get_daily_summary env st d)) ∧
    (∀ env st d, uniformEnvelope (get_body_battery env st d)) ∧
    (∀ env st d, uniformEnvelope (get_sleep_data env st d)) ∧
    (∀ env st d, uniformEnvelope (get_sleep_detail env st d)) ∧
    (∀ env st d, uniformEnvelope (get_heart_rate env st d)) ∧
    (∀ env st d, uniformEnvelope (get_resting_heart_rate env st d)) ∧
    (∀ env st d, uniformEnvelope (get_stress env st d)) ∧
    (∀ env st d, uniformEnvelope (get_steps env st d)) ∧
    (∀ env st d, uniformEnvelope (get_menstrual_cycle env st d)) ∧
    (∀ env st sd ed, uniformEnvelope (update_menstrual_cycle env st sd ed)) ∧
    (∀ env st d, uniformEnvelope (get_hrv env st d)) ∧
    (∀ env st d, uniformEnvelope (get_hydration env st d)) ∧
    (∀ env st ml, uniformEnvelope (add_hydration env st ml)) ∧
    (∀ env st lim, uniformEnvelope (get_activities env st lim)) := by
  have hsimple : ∀ env st d mk, uniformEnvelope (simple_read env st d mk) := by
    intro env st d mk
    rcases simple_read_cases env st d mk with ⟨v, hv⟩ | hf
    · left
      rw [hv]
      rfl
    · right
      exact hf
  refine ⟨fun env st d => hsimple env st d _, ?_, ?_, ?_,
    fun env st d => hsimple env st d _, fun env st d => hsimple env st d _,
    fun env st d => hsimple env st d _, fun env st d => hsimple env st d _,
    fun env st d => hsimple env st d _, ?_,
    fun env st d => hsimple env st d _, fun env st d => hsimple env st d _,
    ?_, ?_⟩
  · intro env st d
    rcases get_body_battery_cases env st d with ⟨b, ev, hv⟩ | hf
    · left
      rw [hv]
      rfl
    · right
      exact hf
  · intro env st d
    rcases get_sleep_data_cases env st d with ⟨s, hv⟩ | hf
    · left
      rw [hv]
      rfl
    · right
      exact hf
  · intro env st d
    rcases get_sleep_detail_cases env st d with ⟨s, hv⟩ | hf
    · left
      rw [hv]
      rfl
    · right
      exact hf
  · intro env st sd ed
    rcases update_menstrual_cycle_cases env st sd ed with ⟨m, dts, hv⟩ | hf
    · left
      rw [hv]
      rfl
    · right
      exact hf
  · intro env st ml
    rcases add_hydration_cases env st ml with ⟨v, hv⟩ | hf
    · left
      rw [hv]
      rfl
    · right
      exact hf
  · intro env st lim
    rcases get_activities_cases env st lim with ⟨n, v, hv⟩ | hf
    · left
      rw [hv]
      rfl
    · right
      exact hf

/-- C2 counterexample: on a successful run, `get_body_battery` returns its
payload under the keys `battery` and `events` with no `data` key at all, so
not every handler carries its success payload under a single `data` key. -/
theorem C2_counterexample :
    keysOf (get_body_battery okEnv none (some "2024-01-01")).result
      = ["success", "date", "battery", "events"] ∧
    List.lookup "data" (get_body_battery okEnv none (some "2024-01-01")).result
      = none ∧
    List.lookup "success" (get_body_battery okEnv none (some "2024-01-01")).result
      = some (JVal.bool true) ∧
    keysOf (update_menstrual_cycle okEnv none "not-a-date" "2024-01-03").result
      = ["success", "error"] ∧
    keysOf (get_activities
        { okEnv with remote := fun _ => Except.ok (JVal.arr []) }
        none 5).result = ["success", "count", "data"] :=
  ⟨rfl, rfl, rfl, rfl, rfl⟩

/-- C2 amended: there are fourteen handlers (not sixteen); every failure
envelope is exactly `{success: false, error: string}`, and every success
envelope carries `success: true`, but four handlers do not use a single
`data` key for the payload: `get_body_battery` returns `battery` and
`events`, `update_menstrual_cycle` returns `message` and `dates` with no
`data` key, `add_hydration` adds `logged_ml` and `message` next to `data`,
and `get_activities` adds `count` next to `data`. -/
theorem C2_theorem :
    (∀ env st d, keysOf (get_daily_summary env st d).result
        = ["success", "date", "data"]
      ∨ keysOf (get_daily_summary env st d).result = ["success", "error"]) ∧
    (∀ env st d, keysOf (get_heart_rate env st d).result
        = ["success", "date", "data"]
      ∨ keysOf (get_heart_rate env st d).result = ["success", "error"]) ∧
    (∀ env st d, keysOf (get_resting_heart_rate env st d).result
        = ["success", "date", "data"]
      ∨ keysOf (get_resting_heart_rate env st d).result = ["success", "error"]) ∧
    (∀ env st d, keysOf (get_stress env st d).result
        = ["success", "date", "data"]
      ∨ keysOf (get_stress env st d).result = ["success", "error"]) ∧
    (∀ env st d, keysOf (get_steps env st d).result
        = ["success", "date", "data"]
      ∨ keysOf (get_steps env st d).result = ["success", "error"]) ∧
    (∀ env st d, keysOf (get_menstrual_cycle env st d).result
        = ["success", "date", "data"]
      ∨ keysOf (get_menstrual_cycle env st d).result = ["success", "error"]) ∧
    (∀ env st d, keysOf (get_hrv env st d).result
        = ["success", "date", "data"]
      ∨ keysOf (get_hrv env st d).result = ["success", "error"]) ∧
    (∀ env st d, keysOf (get_hydration env st d).result
        = ["success", "date", "data"]
      ∨ keysOf (get_hydration env st d).result = ["success", "error"]) ∧
    (∀ env st d, keysOf (get_sleep_data env st d).result
        = ["success", "date", "data"]
      ∨ keysOf (get_sleep_data env st d).result = ["success", "error"]) ∧
    (∀ env st d, keysOf (get_sleep_detail env st d).result
        = ["success", "date", "data"]
      ∨ keysOf (get_sleep_detail env st d).result = ["success", "error"]) ∧
    (∀ env st d, keysOf (get_body_battery env st d).result
        = ["success", "date", "battery", "events"]
      ∨ keysOf (get_body_battery env st d).result = ["success", "error"]) ∧
    (∀ env st sd ed, keysOf (update_menstrual_cycle env st sd ed).result
        = ["success", "message", "dates"]
      ∨ keysOf (update_menstrual_cycle env st sd ed).result
        = ["success", "error"]) ∧
    (∀ env st ml, keysOf (add_hydration env st ml).result
        = ["success", "logged_ml", "message", "data"]
      ∨ keysOf (add_hydration env st ml).result = ["success", "error"]) ∧
    (∀ env st lim, keysOf (get_activities env st lim).result
        = ["success", "count", "data"]
      ∨ keysOf (get_activities env st lim).result = ["success", "error"]) := by
  have hsimple : ∀ env st d mk,
      keysOf (simple_read env st d mk).result = ["success", "date", "data"]
      ∨ keysOf (simple_read env st d mk).result = ["success", "error"] := by
    intro env st d mk
    rcases simple_read_cases env st d mk with ⟨v, hv⟩ | ⟨m, hm⟩
    · left
      rw [hv]
      rfl
    · right
      rw [hm]
      rfl
  refine ⟨fun env st d => hsimple env st d _, fun env st d => hsimple env st d _,
    fun env st d => hsimple env st d _, fun env st d => hsimple env st d _,
    fun env st d => hsimple env st d _, fun env st d => hsimple env st d _,
    fun env st d => hsimple env st d _, fun env st d => hsimple env st d _,
    ?_, ?_, ?_, ?_, ?_, ?_⟩
  · intro env st d
    rcases get_sleep_data_cases env st d with ⟨s, hv⟩ | ⟨m, hm⟩
    · left
      rw [hv]
      rfl
    · right
      rw [hm]
      rfl
  · intro env st d
    rcases get_sleep_detail_cases env st d with ⟨s, hv⟩ | ⟨m, hm⟩
    · left
      rw [hv]
      rfl
    · right
      rw [hm]
      rfl
  · intro env st d
    rcases get_body_battery_cases env st d with ⟨b, ev, hv⟩ | ⟨m, hm⟩
    · left
      rw [hv]
      rfl
    · right
      rw [hm]
      rfl
  · intro env st sd ed
    rcases update_menstrual_cycle_cases env st sd ed with ⟨m, dts, hv⟩ | ⟨m, hm⟩
    · left
      rw [hv]
      rfl
    · right
      rw [hm]
      rfl
  · intro env st ml
    rcases add_hydration_cases env st ml with ⟨v, hv⟩ | ⟨m, hm⟩
    · left
      rw [hv]
      rfl
    · right
      rw [hm]
      rfl
  · intro env st lim
    rcases get_activities_cases env st lim with ⟨n, v, hv⟩ | ⟨m, hm⟩
    · left
      rw [hv]
      rfl
    · right
      rw [hm]
      rfl

theorem strptimeRegex_error {s : String} {e : Exc}
    (h : strptimeRegex s = .error e) : ∃ m, e = .valueError m := by
  simp only [strptimeRegex] at h
  repeat' split at h
  all_goals first
    | (cases h; exact ⟨_, rfl⟩)
    | cases h

theorem mkDateChecked_error {y m d : Nat} {e : Exc}
    (h : mkDateChecked y m d = .error e) : ∃ msg, e = .valueError msg := by
  simp only [mkDateChecked] at h
  repeat' split at h
  all_goals first
    | (cases h; exact ⟨_, rfl⟩)
    | cases h

theorem strptime_ymd_error {s : String} {e : Exc}
    (h : strptime_ymd s = .error e) : ∃ m, e = .valueError m := by
  simp only [strptime_ymd] at h
  split at h
  · rename_i e1 heq
    cases h
    exact strptimeRegex_error heq
  · exact mkDateChecked_error h

theorem init_client_fallback_no_datacall (env : Env) (st : Option GClient)
    (tr : List Effect) (h : tr.filter isDataCall = []) :
    ((init_client_fallback env st tr).2.2).filter isDataCall = [] := by
  simp only [init_client_fallback]
  split
  · split
    · simp [List.filter_append, h, isDataCall]
    · simp [List.filter_append, h, isDataCall]
  · exact h

theorem get_client_no_datacall (env : Env) (st : Option GClient) :
    ((get_client env st).2.2).filter isDataCall = [] := by
  have hinit : ∀ st' : Option GClient,
      ((init_client env st').2.2).filter isDataCall = [] := by
    intro st'
    simp only [init_client]
    split
    · split
      · rfl
      · exact init_client_fallback_no_datacall env st' _ rfl
    · exact init_client_fallback_no_datacall env st' _ rfl
  cases st with
  | some c => rfl
  | none =>
    rcases hinitv : init_client env none with ⟨ret, st2, tr⟩
    have htr := hinit none
    rw [hinitv] at htr
    simp only [get_client, hinitv]
    cases st2 <;> exact htr

/-- C1 counterexample: `update_menstrual_cycle("not-a-date", "2024-01-03")`
does not validate before session acquisition — with no session available it
returns the unauthenticated envelope (not a validation error), and when the
session is available the effect trace begins with session acquisition
(including its remote token login) before the validation error is raised. -/
theorem C1_counterexample :
    (update_menstrual_cycle noAuthEnv none "not-a-date" "2024-01-03").result
      = [("success", JVal.bool false),
         ("error",
          JVal.str "Not authenticated. Run auth.py to set up Garmin credentials.")] ∧
    (update_menstrual_cycle okEnv none "not-a-date" "2024-01-03").effects
      = [Effect.getClient, Effect.tokenLogin TOKENSTORE,
         Effect.dumpTokens TOKENSTORE] :=
  ⟨rfl, rfl⟩

/-- C1 amended: in `update_menstrual_cycle`, session acquisition is invoked
before local validation (the effect trace always starts with it); when at
least one of the two inputs does not parse as `YYYY-MM-DD`, no remote data
call is ever issued, and provided session acquisition succeeds the handler
returns the validation-error envelope `Invalid date format: ...`. -/
theorem C1_theorem (env : Env) (st : Option GClient) (sd ed : String)
    (hbad : (strptime_ymd sd).isOk = false ∨ (strptime_ymd ed).isOk = false) :
    ((update_menstrual_cycle env st sd ed).effects.filter isDataCall = []) ∧
    (∃ rest, (update_menstrual_cycle env st sd ed).effects
        = Effect.getClient :: rest) ∧
    (∀ c st2 tr, get_client env st = (.ok c, st2, tr) →
      ∃ m, (update_menstrual_cycle env st sd ed).result
        = [("success", JVal.bool false),
           ("error", JVal.str ("Invalid date format: " ++ m))]) := by
  rcases hgc : get_client env st with ⟨res, st2, tr⟩
  have htr : tr.filter isDataCall = [] := by
    have h := get_client_no_datacall env st
    rw [hgc] at h
    exact h
  simp only [update_menstrual_cycle, hgc]
  cases res with
  | error e =>
    refine ⟨?_, ⟨tr, rfl⟩, ?_⟩
    · simp [List.filter_cons, isDataCall, htr]
    · intro c st2' tr' hgc2
      simp at hgc2
  | ok c =>
    cases hsd : strptime_ymd sd with
    | error e1 =>
      obtain ⟨m, hm⟩ := strptime_ymd_error hsd
      subst hm
      refine ⟨?_, ⟨tr, rfl⟩, ?_⟩
      · simp [List.filter_cons, isDataCall, htr]
      · intro c' st2' tr' _
        exact ⟨m, rfl⟩
    | ok startD =>
      dsimp only
      cases hed : strptime_ymd ed with
      | error e2 =>
        obtain ⟨m, hm⟩ := strptime_ymd_error hed
        subst hm
        refine ⟨?_, ⟨tr, rfl⟩, ?_⟩
        · simp [List.filter_cons, isDataCall, htr]
        · intro c' st2' tr' _
          exact ⟨m, rfl⟩
      | ok endD =>
        exfalso
        rcases hbad with h | h
        · rw [hsd] at h
          simp [Except.isOk, Except.toBool] at h
        · rw [hed] at h
          simp [Except.isOk, Except.toBool] at h

/-- C1 witness: the malformed start date of the spec's test, in the
token-authenticated world. -/
theorem C1_witness :
    (strptime_ymd "not-a-date").isOk = false ∧
    (((update_menstrual_cycle okEnv none "not-a-date" "2024-01-03").effects.filter
        isDataCall = []) ∧
     (∃ rest, (update_menstrual_cycle okEnv none "not-a-date" "2024-01-03").effects
        = Effect.getClient :: rest) ∧
     (∀ c st2 tr, get_client okEnv none = (.ok c, st2, tr) →
       ∃ m, (update_menstrual_cycle okEnv none "not-a-date" "2024-01-03").result
         = [("success", JVal.bool false),
            ("error", JVal.str ("Invalid date format: " ++ m))])) :=
  ⟨by decide,
   C1_theorem okEnv none "not-a-date" "2024-01-03" (Or.inl (by decide))⟩

/-- C8: for any two parseable dates with the end before the start,
`update_menstrual_cycle` issues no remote write (no data call at all), and
whenever session acquisition succeeds it returns the validation-error
envelope `end_date must be on or after start_date` with `success: false`. -/
theorem C8_theorem (env : Env) (st : Option GClient) (sd ed : String)
    (startD endD : Date)
    (h1 : strptime_ymd sd = .ok startD) (h2 : strptime_ymd ed = .ok endD)
    (hlt : Date.blt endD startD = true) :
    ((update_menstrual_cycle env st sd ed).effects.filter isDataCall = []) ∧
    (∀ c st2 tr, get_client env st = (.ok c, st2, tr) →
      (update_menstrual_cycle env st sd ed).result
        = [("success", JVal.bool false),
           ("error", JVal.str "end_date must be on or after start_date")]) := by
  rcases hgc : get_client env st with ⟨res, st2, tr⟩
  have htr : tr.filter isDataCall = [] := by
    have h := get_client_no_datacall env st
    rw [hgc] at h
    exact h
  simp only [update_menstrual_cycle, hgc, h1, h2]
  cases res with
  | error e =>
    refine ⟨?_, ?_⟩
    · simp [List.filter_cons, isDataCall, htr]
    · intro c st2' tr' hgc2
      simp at hgc2
  | ok c =>
    dsimp only
    rw [if_pos hlt]
    refine ⟨?_, ?_⟩
    · simp [List.filter_cons, isDataCall, htr]
    · intro c' st2' tr' _
      rfl

/-- C8 witness: the spec's invalid-range test
`UpdateMenstrualCycle("2024-01-05", "2024-01-01")`. -/
theorem C8_witness :
    strptime_ymd "2024-01-05" = .ok ⟨2024, 1, 5⟩ ∧
    strptime_ymd "2024-01-01" = .ok ⟨2024, 1, 1⟩ ∧
    Date.blt ⟨2024, 1, 1⟩ ⟨2024, 1, 5⟩ = true ∧
    (((update_menstrual_cycle okEnv none "2024-01-05" "2024-01-01").effects.filter
        isDataCall = []) ∧
     (∀ c st2 tr, get_client okEnv none = (.ok c, st2, tr) →
       (update_menstrual_cycle okEnv none "2024-01-05" "2024-01-01").result
         = [("success", JVal.bool false),
            ("error", JVal.str "end_date must be on or after start_date")])) :=
  ⟨by decide, by decide, by decide,
   C8_theorem okEnv none "2024-01-05" "2024-01-01" ⟨2024, 1, 5⟩ ⟨2024, 1, 1⟩
     (by decide) (by decide) (by decide)⟩

/-- C9: whenever the sleep payload's nested
`dailySleepDTO.sleepScores.overall.value` is `v` and the summary extraction
succeeds, `get_sleep_data` exposes `sleepScore = v` in its `data` object,
whose keys are exactly the nineteen summary fields — none of which is one
of the per-minute/per-epoch series keys that `get_sleep_detail` exposes. -/
theorem C9_theorem (env : Env) (st : Option GClient) (d : Option String)
    (payload : JVal) (s : Dict) (dto scores overall v : JVal)
    (c : GClient) (st2 : Option GClient) (tr : List Effect)
    (hgc : get_client env st = (.ok c, st2, tr))
    (hr : env.remote (.get_sleep_data (resolve_date env d)) = .ok payload)
    (hs : sleep_summary_of payload = .ok s)
    (hdto : pyget payload "dailySleepDTO" (.obj []) = .ok dto)
    (hscores : pyget dto "sleepScores" (.obj []) = .ok scores)
    (hoverall : pyget scores "overall" (.obj []) = .ok overall)
    (hv : pyget overall "value" .null = .ok v) :
    (get_sleep_data env st d).result
      = [("success", JVal.bool true), ("date", JVal.str (resolve_date env d)),
         ("data", JVal.obj s)] ∧
    List.lookup "sleepScore" s = some v ∧
    keysOf s =
      ["calendarDate", "sleepScore", "sleepQuality", "sleepStartLocal",
       "sleepEndLocal", "sleepDurationSecs", "deepSleepSecs",
       "lightSleepSecs", "remSleepSecs", "awakeSleepSecs", "averageSpO2",
       "lowestSpO2", "averageRespiration", "restingHeartRate",
       "avgOvernightHrv", "hrvStatus", "bodyBatteryChange",
       "restlessMomentsCount", "sleepLevels"] ∧
    (∀ payload2 dt, sleep_detail_of payload2 = .ok dt →
      ∀ k ∈ keysOf dt, k ∉ keysOf s) := by
  have hs' := hs
  simp only [sleep_summary_of, Except.bind, hdto, hscores, hoverall, hv] at hs
  repeat' split at hs
  all_goals cases hs
  refine ⟨?_, rfl, rfl, ?_⟩
  · simp only [get_sleep_data, hgc, hr, hs']
  · intro payload2 dt hdt k hk
    simp only [sleep_detail_of, Except.bind] at hdt
    repeat' split at hdt
    all_goals cases hdt
    simp [keysOf] at hk ⊢
    rcases hk with rfl | rfl | rfl | rfl | rfl | rfl | rfl | rfl <;> decide

/-- C9 witness: the synthetic payload with
`dailySleepDTO.sleepScores.overall.value = 85`. -/
theorem C9_witness :
    ∃ s : Dict,
      List.lookup "sleepScore" s = some (JVal.num 85) ∧
      (get_sleep_data
        { okEnv with remote := fun _ => Except.ok (JVal.obj
            [("dailySleepDTO", JVal.obj
              [("sleepScores", JVal.obj
                [("overall", JVal.obj [("value", JVal.num 85)])])])]) }
        none none).result
        = [("success", JVal.bool true), ("date", JVal.str "2025-01-15"),
           ("data", JVal.obj s)] ∧
      (∀ payload2 dt, sleep_detail_of payload2 = .ok dt →
        ∀ k ∈ keysOf dt, k ∉ keysOf s) := by
  obtain ⟨h1, h2, h3, h4⟩ := C9_theorem
    { okEnv with remote := fun _ => Except.ok (JVal.obj
        [("dailySleepDTO", JVal.obj
          [("sleepScores", JVal.obj
            [("overall", JVal.obj [("value", JVal.num 85)])])])]) }
    none none
    (JVal.obj
      [("dailySleepDTO", JVal.obj
        [("sleepScores", JVal.obj
          [("overall", JVal.obj [("value", JVal.num 85)])])])])
    [("calendarDate", JVal.null),
     ("sleepScore", JVal.num 85),
     ("sleepQuality", JVal.null),
     ("sleepStartLocal", JVal.null),
     ("sleepEndLocal", JVal.null),
     ("sleepDurationSecs", JVal.null),
     ("deepSleepSecs", JVal.null),
     ("lightSleepSecs", JVal.null),
     ("remSleepSecs", JVal.null),
     ("awakeSleepSecs", JVal.null),
     ("averageSpO2", JVal.null),
     ("lowestSpO2", JVal.null),
     ("averageRespiration", JVal.null),
     ("restingHeartRate", JVal.null),
     ("avgOvernightHrv", JVal.null),
     ("hrvStatus", JVal.null),
     ("bodyBatteryChange", JVal.null),
     ("restlessMomentsCount", JVal.null),
     ("sleepLevels", JVal.arr [])]
    (JVal.obj
      [("sleepScores", JVal.obj
        [("overall", JVal.obj [("value", JVal.num 85)])])])
    (JVal.obj [("overall", JVal.obj [("value", JVal.num 85)])])
    (JVal.obj [("value", JVal.num 85)])
    (JVal.num 85)
    1 (some 1) [Effect.tokenLogin TOKENSTORE, Effect.dumpTokens TOKENSTORE]
    rfl rfl rfl rfl rfl rfl rfl
  exact ⟨_, h2, h1, h4⟩

theorem mkDateChecked_valid {y m d : Nat} {dt : Date}
    (h : mkDateChecked y m d = .ok dt) : dt.Valid := by
  simp only [mkDateChecked] at h
  repeat' split at h
  all_goals cases h
  rename_i h1 h2 h3
  unfold Date.Valid
  dsimp only
  simp only [Bool.or_eq_true, decide_eq_true_eq, not_or] at h1 h2 h3
  omega

theorem strptime_ymd_valid {s : String} {dt : Date}
    (h : strptime_ymd s = .ok dt) : dt.Valid := by
  simp only [strptime_ymd] at h
  split at h
  · cases h
  · exact mkDateChecked_valid h

/-- C3 counterexample: for the valid pair
`("9999-12-31", "9999-12-31")` (start = end = `date.max`) the loop's day
increment overflows Python's date range, so the handler returns an error
envelope instead of the one-day list. -/
theorem C3_counterexample :
    (update_menstrual_cycle okEnv none "9999-12-31" "9999-12-31").result
      = [("success", JVal.bool false),
         ("error", JVal.str "date value out of range")] := by
  have hcl : cycleLoop maxDate maxDate
      = .error (.other "date value out of range") := by
    rw [cycleLoop_step]
    norm_num [Date.ble, maxDate]
  have hgc : get_client okEnv none
      = (.ok 1, some 1,
         [Effect.tokenLogin TOKENSTORE, Effect.dumpTokens TOKENSTORE]) := rfl
  have hp : strptime_ymd "9999-12-31" = .ok maxDate := by decide
  have hblt : Date.blt maxDate maxDate = false := rfl
  simp [update_menstrual_cycle, hgc, hp, hblt, hcl, excEnvelopeUMC]

/-- C3 amended: for every pair of valid date strings with
`start_date <= end_date` and `end_date` strictly before the maximal
representable date `9999-12-31` (where the loop's increment past the end
overflows and an error envelope results instead), and for any world where
the session is available and the remote write succeeds,
`update_menstrual_cycle` succeeds with the inclusive day-by-day date list —
whose `i`-th entry is `start + i` days, whose length
(`end.toOrdinal + 1 - start.toOrdinal`) is reported as the day count, and
which contains the isoformat of every calendar date between start and end —
echoed under `dates`. -/
theorem C3_theorem (env : Env) (st : Option GClient) (sd ed : String)
    (startD endD : Date)
    (h1 : strptime_ymd sd = .ok startD) (h2 : strptime_ymd ed = .ok endD)
    (hle : Date.ble startD endD = true) (hmax : endD ≠ maxDate)
    (c : GClient) (st2 : Option GClient) (tr : List Effect)
    (hgc : get_client env st = (.ok c, st2, tr))
    (hwrite : ∀ p, ∃ v,
      env.remote (.connectapi MENSTRUAL_CALENDAR_URL p) = .ok v) :
    ∃ l, cycleLoop startD endD = .ok l ∧
      (update_menstrual_cycle env st sd ed).result
        = [("success", JVal.bool true),
           ("message", JVal.str ("Period logged: " ++ sd ++ " to " ++ ed
             ++ " (" ++ toString l.length ++ " days)")),
           ("dates", JVal.arr (l.map JVal.str))] ∧
      l.length = endD.toOrdinal + 1 - startD.toOrdinal ∧
      (∀ i, ∀ h : i < l.length,
        l.get ⟨i, h⟩ = Date.isoformat (nextDay^[i] startD)) ∧
      (∀ x : Date, x.Valid → Date.ble startD x = true →
        Date.ble x endD = true → Date.isoformat x ∈ l) := by
  have hvs : startD.Valid := strptime_ymd_valid h1
  have hve : endD.Valid := strptime_ymd_valid h2
  obtain ⟨l, hl, hlen, hidx⟩ :=
    cycleLoop_spec hve hmax (endD.toOrdinal - startD.toOrdinal) startD hvs
      hle rfl
  have hnlt : ¬ (Date.blt endD startD = true) := by
    rw [blt_iff]
    rw [ble_iff] at hle
    omega
  obtain ⟨v, hv⟩ := hwrite (menstrual_payload env sd ed l)
  refine ⟨l, hl, ?_, hlen, hidx, ?_⟩
  · simp only [update_menstrual_cycle, hgc, h1, h2]
    rw [if_neg hnlt]
    simp only [hl, hv]
  · intro x hvx hsx hxe
    have hox : startD.toOrdinal ≤ x.toOrdinal :=
      (ble_iff_toOrdinal hvs hvx).1 hsx
    have hoe : x.toOrdinal ≤ endD.toOrdinal :=
      (ble_iff_toOrdinal hvx hve).1 hxe
    have hreach : nextDay^[x.toOrdinal - startD.toOrdinal] startD = x :=
      nextDay_iterate_reach hvx (x.toOrdinal - startD.toOrdinal) startD hvs
        hsx rfl
    have hi : x.toOrdinal - startD.toOrdinal < l.length := by
      rw [hlen]
      omega
    have hg := hidx (x.toOrdinal - startD.toOrdinal) hi
    rw [hreach] at hg
    rw [← hg]
    exact List.get_mem l _ _

/-- C3 witness: the spec's date-range-expansion test
`UpdateMenstrualCycle("2024-01-01", "2024-01-03")` produces exactly the
three-entry list and reports 3 days. -/
theorem C3_witness :
    strptime_ymd "2024-01-01" = .ok ⟨2024, 1, 1⟩ ∧
    strptime_ymd "2024-01-03" = .ok ⟨2024, 1, 3⟩ ∧
    Date.ble ⟨2024, 1, 1⟩ ⟨2024, 1, 3⟩ = true ∧
    (update_menstrual_cycle okEnv none "2024-01-01" "2024-01-03").result
      = [("success", JVal.bool true),
         ("message", JVal.str "Period logged: 2024-01-01 to 2024-01-03 (3 days)"),
         ("dates", JVal.arr
           [JVal.str "2024-01-01", JVal.str "2024-01-02",
            JVal.str "2024-01-03"])] := by
  have happ := C3_theorem okEnv none "2024-01-01" "2024-01-03"
    ⟨2024, 1, 1⟩ ⟨2024, 1, 3⟩ (by decide) (by decide) (by decide) (by decide)
    1 (some 1) [Effect.tokenLogin TOKENSTORE, Effect.dumpTokens TOKENSTORE]
    rfl (fun p => ⟨.null, rfl⟩)
  have hcl : cycleLoop ⟨2024, 1, 1⟩ ⟨2024, 1, 3⟩
      = .ok ["2024-01-01", "2024-01-02", "2024-01-03"] := by
    rw [cycleLoop_step]
    norm_num [Date.ble, maxDate, nextDay, daysInMonth, isLeap]
    rw [cycleLoop_step]
    norm_num [Date.ble, maxDate, nextDay, daysInMonth, isLeap]
    rw [cycleLoop_step]
    norm_num [Date.ble, maxDate, nextDay, daysInMonth, isLeap]
    rw [cycleLoop_step]
    norm_num [Date.ble, maxDate, nextDay, daysInMonth, isLeap,
      Date.isoformat, pad2, pad4]
    decide
  refine ⟨by decide, by decide, by decide, ?_⟩
  obtain ⟨l, hl, hres, _⟩ := happ
  rw [hcl] at hl
  cases hl
  exact hres
